import Mathlib

/-!
Verification of the Sudoku ILP model builder and solution decoder
(source: `src/Project_1.py`).

The Python code builds a PuLP linear problem over 9x9x9 binary variables
`grid_vars[row][col][value]`, adds equality constraints, solves, and decodes
the assignment back into a grid.  Here each PuLP `LpConstraint` is reified as
a record holding its name, its linear terms (coefficient times variable) and
its right-hand side; an assignment of the binary variables is a Boolean
valuation of the index triples.  The constraint-building functions mirror the
Python functions line by line; `rows`, `cols`, `grids` and `values` are the
ranges that `solve_sudoku` always passes to them.  Python f-string constraint
names are represented by the structured type `CName` (one constructor per
f-string template, applied to the same arguments).  A Python `IndexError`
raised while reading `input_sudoku[row][col]` is modelled by `Option`:
`none` means the build aborts with an exception.
-/

/-- Structured form of the f-string constraint names used in the source. -/
inductive CName where
  | sum : Nat → Nat → CName
  | uniqRow : Nat → Nat → CName
  | uniqCol : Nat → Nat → CName
  | uniqGrid : Nat → Nat → CName
  | uniqDiag1 : Nat → CName
  | uniqDiag2 : Nat → CName
  | prefilled : Nat → Nat → CName
deriving DecidableEq

/-- One linear term `coeff * grid_vars[row][col][val]` of a constraint. -/
structure ConTerm where
  coeff : Int
  row : Nat
  col : Nat
  val : Nat
deriving DecidableEq

/-- A reified PuLP equality constraint `lpSum terms = rhs` with its name. -/
structure LpConstraint where
  name : CName
  terms : List ConTerm
  rhs : Int
deriving DecidableEq

/-- A 0/1 valuation of the binary variables `grid_vars[row][col][value]`. -/
abbrev Assignment := Nat → Nat → Nat → Bool

def boolToInt (b : Bool) : Int := if b then 1 else 0

/-- Value of the left-hand side of a constraint under an assignment. -/
def lhsVal (x : Assignment) (c : LpConstraint) : Int :=
  (c.terms.map (fun t => t.coeff * boolToInt (x t.row t.col t.val))).sum

/-- The assignment satisfies the equality constraint. -/
def conSat (x : Assignment) (c : LpConstraint) : Prop := lhsVal x c = c.rhs

instance (x : Assignment) (c : LpConstraint) : Decidable (conSat x c) := by
  unfold conSat; infer_instance

/-- The assignment satisfies every constraint of the list. -/
def SatisfiesAll (x : Assignment) (cs : List LpConstraint) : Prop :=
  ∀ c ∈ cs, conSat x c

instance (x : Assignment) (cs : List LpConstraint) : Decidable (SatisfiesAll x cs) :=
  List.decidableBAll _ cs

/-- `rows = range(0,9)` as passed by `solve_sudoku`. -/
def rows : List Nat := List.range 9

/-- `cols = range(0,9)` as passed by `solve_sudoku`. -/
def cols : List Nat := List.range 9

/-- `grids = range(0,9)` as passed by `solve_sudoku`. -/
def grids : List Nat := List.range 9

/-- `values = range(1,10)` as passed by `solve_sudoku`. -/
def values : List Nat := List.range' 1 9

/-- The cell constraint `lpSum([grid_vars[row][col][value] for value in values]) = 1`,
named `constraint_sum_{row}_{col}`. -/
def cellCon (row col : Nat) : LpConstraint :=
  { name := CName.sum row col,
    terms := values.map (fun v => { coeff := 1, row := row, col := col, val := v }),
    rhs := 1 }

/-- The weighted uniqueness constraint `lpSum([var(cell, v) * v for cell in cells]) = v`
shared by the row, column, grid and diagonal families of the source. -/
def weightedCon (name : CName) (cells : List (Nat × Nat)) (v : Nat) : LpConstraint :=
  { name := name,
    terms := cells.map (fun rc => { coeff := (v : Int), row := rc.1, col := rc.2, val := v }),
    rhs := (v : Int) }

/-- Cells of row `row`, in the order of `for col in cols`. -/
def rowCells (row : Nat) : List (Nat × Nat) := cols.map (fun col => (row, col))

/-- Cells of column `col`, in the order of `for row in rows`. -/
def colCells (col : Nat) : List (Nat × Nat) := rows.map (fun row => (row, col))

/-- Cells of 3x3 grid `grid`: `grid_vars[grid_row*3+row][grid_col*3+col]` with
`grid_row = grid/3`, `grid_col = grid%3`, iterated `for col in range(0,3) for
row in range(0,3)` as in the source comprehension. -/
def gridCells (grid : Nat) : List (Nat × Nat) :=
  (List.range 3).flatMap
    (fun col => (List.range 3).map (fun row => (grid / 3 * 3 + row, grid % 3 * 3 + col)))

/-- Cells `grid_vars[row][row]` of the main diagonal. -/
def diag1Cells : List (Nat × Nat) := rows.map (fun row => (row, row))

/-- Cells `grid_vars[row][len(rows)-row-1]` of the anti-diagonal. -/
def diag2Cells : List (Nat × Nat) := rows.map (fun row => (row, rows.length - row - 1))

/-- `add_default_sudoku_constraints`: cell constraints, then row, column and
grid uniqueness constraints, in source order. -/
def add_default_sudoku_constraints : List LpConstraint :=
  (rows.flatMap (fun row => cols.map (fun col => cellCon row col))) ++
  (rows.flatMap (fun row => values.map (fun v =>
      weightedCon (CName.uniqRow row v) (rowCells row) v))) ++
  (cols.flatMap (fun col => values.map (fun v =>
      weightedCon (CName.uniqCol col v) (colCells col) v))) ++
  (grids.flatMap (fun grid => values.map (fun v =>
      weightedCon (CName.uniqGrid grid v) (gridCells grid) v)))

/-- `add_diagonal_sudoku_constraints`: both diagonal uniqueness families. -/
def add_diagonal_sudoku_constraints : List LpConstraint :=
  (values.map (fun v => weightedCon (CName.uniqDiag1 v) diag1Cells v)) ++
  (values.map (fun v => weightedCon (CName.uniqDiag2 v) diag2Cells v))

/-- `input_sudoku[row][col]`, `none` when the Python indexing would raise. -/
def cellEntry (board : List (List Int)) (row col : Nat) : Option Int :=
  match board[row]? with
  | none => none
  | some r => r[col]?

/-- The prefilled constraint
`lpSum([grid_vars[row][col][value]*value for value in values]) = input_sudoku[row][col]`. -/
def prefilledCon (row col : Nat) (p : Int) : LpConstraint :=
  { name := CName.prefilled row col,
    terms := values.map (fun (v : Nat) => { coeff := (v : Int), row := row, col := col, val := v }),
    rhs := p }

/-- The row-major traversal order `for row in rows: for col in cols` of the board. -/
def cellList : List (Nat × Nat) := rows.flatMap (fun row => cols.map (fun col => (row, col)))

/-- Traversal of `add_prefilled_constraints`: read each board cell in order,
abort (`none`) at the first out-of-range access, otherwise add a constraint
for each non-zero entry. -/
def prefilledAux (board : List (List Int)) : List (Nat × Nat) → Option (List LpConstraint)
  | [] => some []
  | rc :: rest =>
    match cellEntry board rc.1 rc.2 with
    | none => none
    | some p =>
      match prefilledAux board rest with
      | none => none
      | some cs => some ((if p ≠ 0 then [prefilledCon rc.1 rc.2 p] else []) ++ cs)

/-- `add_prefilled_constraints`, over the full row-major cell traversal. -/
def add_prefilled_constraints (board : List (List Int)) : Option (List LpConstraint) :=
  prefilledAux board cellList

/-- The constraint set built by `solve_sudoku` before calling the solver:
default constraints, then diagonal constraints when the flag is set, then
prefilled constraints; `none` models the `IndexError` escaping the call. -/
def buildConstraints (board : List (List Int)) (diagonal : Bool) : Option (List LpConstraint) :=
  match add_prefilled_constraints board with
  | none => none
  | some pre =>
    some (add_default_sudoku_constraints ++
          (if diagonal then add_diagonal_sudoku_constraints else []) ++ pre)

/-- The index triples of `grid_vars = LpVariable.dicts("grid_value", (rows, cols, values))`. -/
def varList : List (Nat × Nat × Nat) :=
  rows.flatMap (fun row => cols.flatMap (fun col => values.map (fun v => (row, col, v))))

/-- Decoding of one cell in `extract_solution`: start from the initial `0` and
scan `for value in values`, overwriting whenever the variable reads true. -/
def extractCell (x : Assignment) (row col : Nat) : Nat :=
  values.foldl (fun acc v => if x row col v then v else acc) 0

/-- `extract_solution`: the decoded grid, row by row. -/
def extract_solution (x : Assignment) : List (List Nat) :=
  rows.map (fun row => cols.map (fun col => extractCell x row col))

/-- Row `r` of a decoded grid. -/
def gridRow (sol : List (List Nat)) (r : Nat) : List Nat := sol.getD r []

/-- Column `c` of a decoded grid. -/
def gridCol (sol : List (List Nat)) (c : Nat) : List Nat :=
  sol.map (fun row => row.getD c 0)

/-- The entries of 3x3 grid `g` of a decoded grid. -/
def gridBox (sol : List (List Nat)) (g : Nat) : List Nat :=
  (gridCells g).map (fun rc => (sol.getD rc.1 []).getD rc.2 0)

/-- The main-diagonal entries of a decoded grid. -/
def gridDiag1 (sol : List (List Nat)) : List Nat :=
  diag1Cells.map (fun rc => (sol.getD rc.1 []).getD rc.2 0)

/-- The anti-diagonal entries of a decoded grid. -/
def gridDiag2 (sol : List (List Nat)) : List Nat :=
  diag2Cells.map (fun rc => (sol.getD rc.1 []).getD rc.2 0)

/-- PuLP solver status codes relevant to `plp.LpStatus[prob.status]`. -/
inductive LpStatusCode where
  | NotSolved
  | Optimal
  | Infeasible
  | Unbounded
  | Undefined
deriving DecidableEq

/-- The `plp.LpStatus` lookup table of status strings. -/
def LpStatusStr : LpStatusCode → String
  | LpStatusCode.NotSolved => "Not Solved"
  | LpStatusCode.Optimal => "Optimal"
  | LpStatusCode.Infeasible => "Infeasible"
  | LpStatusCode.Unbounded => "Unbounded"
  | LpStatusCode.Undefined => "Undefined"

/-- Observable outcome of the tail of `solve_sudoku` after `prob.solve()`:
the Python return value of the function, the printed status line and the
solution grid printed via `print_solution` (if any). -/
structure SolveOutput where
  returned : Option (List (List Nat))
  printedStatus : String
  printedSolution : Option (List (List Nat))
deriving DecidableEq

/-- The tail of `solve_sudoku`: the function body has no `return` statement
(so the caller always receives `None`), prints the status string, and prints
the extracted solution only when the status string equals `Optimal`. -/
def solve_sudoku_output (status : LpStatusCode) (x : Assignment) : SolveOutput :=
  { returned := none,
    printedStatus := "Solution Status = " ++ LpStatusStr status,
    printedSolution :=
      if LpStatusStr status = "Optimal" then some (extract_solution x) else none }

/-- Stated from the spec wording: the board is exactly 9x9. -/
def is9x9 (board : List (List Int)) : Bool :=
  board.length == 9 && board.all (fun r => r.length == 9)

/-- Stated from the spec wording: every entry lies in `{0} ∪ {1..9}`. -/
def boardValuesOk (board : List (List Int)) : Bool :=
  board.all (fun r => r.all (fun p => p == 0 || (1 ≤ p && p ≤ 9)))

/-- The board cell exists and is non-zero (a prefilled cell). -/
def entryNonzero (board : List (List Int)) (row col : Nat) : Bool :=
  ((cellEntry board row col).getD 0) != 0

/-- The `normal_sudoku` example board of the source file. -/
def normal_sudoku : List (List Int) :=
  [[3,0,0,8,0,0,0,0,1],
   [0,0,0,0,0,2,0,0,0],
   [0,4,1,5,0,0,8,3,0],
   [0,2,0,0,0,1,0,0,0],
   [8,5,0,4,0,3,0,1,7],
   [0,0,0,7,0,0,0,2,0],
   [0,8,5,0,0,9,7,4,0],
   [0,0,0,1,0,0,0,0,0],
   [9,0,0,0,0,7,0,0,6]]

/-- A concrete assignment describing a valid (non-diagonal) Sudoku grid:
cell `(r, c)` holds value `(3*(r%3) + r/3 + c) % 9 + 1`. -/
def xsol : Assignment :=
  fun r c v => v == (3 * (r % 3) + r / 3 + c) % 9 + 1

/-- The all-false assignment: no variable reads true. -/
def xAllFalse : Assignment := fun _ _ _ => false

/-- An assignment making exactly the value-5 variable of every cell true. -/
def x5 : Assignment := fun _ _ v => v == 5

/-- An assignment making the value-3 and value-7 variables of every cell true. -/
def x37 : Assignment := fun _ _ v => v == 3 || v == 7

/-- A 10x10 all-zero board: not 9x9, all entries in range. -/
def board10 : List (List Int) := List.replicate 10 (List.replicate 10 0)

/-- A 9x9 board whose top-left entry is 17, outside `{0} ∪ {1..9}`. -/
def board17 : List (List Int) :=
  (17 :: List.replicate 8 0) :: List.replicate 8 (List.replicate 9 0)

/-! ### Generic list lemmas -/

lemma sum_map_ite {α : Type} (p : α → Bool) (f : α → Int) (l : List α) :
    (l.map (fun a => if p a then f a else 0)).sum = ((l.filter p).map f).sum := by
  induction l with
  | nil => rfl
  | cons a t ih => by_cases h : p a <;> simp [List.filter_cons, h, ih]

lemma sum_map_boolToInt {α : Type} (p : α → Bool) (l : List α) :
    (l.map (fun a => boolToInt (p a))).sum = (l.countP p : Int) := by
  induction l with
  | nil => rfl
  | cons a t ih =>
    rw [List.map_cons, List.sum_cons, ih, List.countP_cons]
    by_cases h : p a <;> simp [boolToInt, h] <;> push_cast <;> ring

lemma sum_map_mul_boolToInt {α : Type} (p : α → Bool) (k : Int) (l : List α) :
    (l.map (fun a => k * boolToInt (p a))).sum = (l.countP p : Int) * k := by
  induction l with
  | nil => simp
  | cons a t ih =>
    rw [List.map_cons, List.sum_cons, ih, List.countP_cons]
    by_cases h : p a <;> simp [boolToInt, h] <;> push_cast <;> ring

lemma countP_one_unique {α : Type} (p : α → Bool) (l : List α) (h : l.countP p = 1) :
    ∃ a, a ∈ l ∧ p a = true ∧ (∀ b ∈ l, p b = true → b = a) := by
  rw [List.countP_eq_length_filter] at h
  obtain ⟨a, ha⟩ := List.length_eq_one.mp h
  have hmem : a ∈ l.filter p := by rw [ha]; exact List.mem_singleton_self a
  obtain ⟨hal, hap⟩ := List.mem_filter.mp hmem
  refine ⟨a, hal, hap, fun b hb hbp => ?_⟩
  have : b ∈ l.filter p := List.mem_filter.mpr ⟨hb, hbp⟩
  rw [ha] at this
  exact List.mem_singleton.mp this

lemma foldl_pick_none (g : Nat → Bool) (l : List Nat) (acc : Nat)
    (h : ∀ v ∈ l, g v = false) :
    l.foldl (fun a v => if g v then v else a) acc = acc := by
  induction l generalizing acc with
  | nil => rfl
  | cons a t ih =>
    have ha := h a (List.mem_cons_self a t)
    rw [List.foldl_cons, if_neg (by simp [ha])]
    exact ih acc (fun v hv => h v (List.mem_cons_of_mem _ hv))

lemma foldl_pick_last (g : Nat → Bool) (l : List Nat) (v2 acc : Nat)
    (hsort : l.Pairwise (· < ·)) (hmem : v2 ∈ l) (hg : g v2 = true)
    (hmax : ∀ v ∈ l, g v = true → v ≤ v2) :
    l.foldl (fun a v => if g v then v else a) acc = v2 := by
  induction l generalizing acc with
  | nil => cases hmem
  | cons a t ih =>
    rw [List.pairwise_cons] at hsort
    by_cases hvt : v2 ∈ t
    · rw [List.foldl_cons]
      exact ih _ hsort.2 hvt (fun v hv h => hmax v (List.mem_cons_of_mem _ hv) h)
    · have hva : v2 = a := by
        rcases List.mem_cons.mp hmem with h | h
        · exact h
        · exact absurd h hvt
      subst hva
      rw [List.foldl_cons, if_pos hg]
      apply foldl_pick_none
      intro v hv
      by_contra hgv
      have h1 : v ≤ v2 := hmax v (List.mem_cons_of_mem _ hv) (by simpa using hgv)
      have h2 : v2 < v := hsort.1 v hv
      omega

/-! ### Facts about the generated constraints -/

lemma values_sorted : values.Pairwise (· < ·) := by decide

lemma values_pos : ∀ v ∈ values, 0 < v := by decide

lemma values_count_one : ∀ a ∈ values, values.count a = 1 := by decide

lemma lhsVal_cellCon (x : Assignment) (r c : Nat) :
    lhsVal x (cellCon r c) = (values.countP (fun v => x r c v) : Int) := by
  unfold lhsVal cellCon
  rw [List.map_map]
  have hc : ((fun t : ConTerm => t.coeff * boolToInt (x t.row t.col t.val)) ∘
      (fun v : Nat => ({ coeff := 1, row := r, col := c, val := v } : ConTerm)))
      = fun v : Nat => boolToInt (x r c v) := by
    funext v; simp [boolToInt]
  rw [hc, sum_map_boolToInt]

lemma conSat_cellCon (x : Assignment) (r c : Nat) :
    conSat x (cellCon r c) ↔ values.countP (fun v => x r c v) = 1 := by
  unfold conSat
  rw [lhsVal_cellCon]
  show ((values.countP fun v => x r c v : Nat) : Int) = 1 ↔ _
  exact_mod_cast Iff.rfl

lemma lhsVal_weightedCon (x : Assignment) (nm : CName) (cells : List (Nat × Nat)) (v : Nat) :
    lhsVal x (weightedCon nm cells v) =
      (cells.countP (fun rc => x rc.1 rc.2 v) : Int) * v := by
  unfold lhsVal weightedCon
  rw [List.map_map]
  have hc : ((fun t : ConTerm => t.coeff * boolToInt (x t.row t.col t.val)) ∘
      (fun rc : Nat × Nat => ({ coeff := (v : Int), row := rc.1, col := rc.2, val := v } : ConTerm)))
      = fun rc : Nat × Nat => (v : Int) * boolToInt (x rc.1 rc.2 v) := rfl
  rw [hc, sum_map_mul_boolToInt]

lemma conSat_weightedCon (x : Assignment) (nm : CName) (cells : List (Nat × Nat))
    (v : Nat) (hv : 0 < v) :
    conSat x (weightedCon nm cells v) ↔ cells.countP (fun rc => x rc.1 rc.2 v) = 1 := by
  unfold conSat
  rw [lhsVal_weightedCon]
  show ((cells.countP fun rc => x rc.1 rc.2 v : Nat) : Int) * v = (v : Int) ↔ _
  have hv' : (v : Int) ≠ 0 := by exact_mod_cast hv.ne'
  constructor
  · intro h
    have h1 : ((cells.countP fun rc => x rc.1 rc.2 v : Nat) : Int) * v = 1 * v := by
      rw [h, one_mul]
    have := mul_right_cancel₀ hv' h1
    exact_mod_cast this
  · intro h
    rw [h]
    simp

lemma lhsVal_prefilledCon (x : Assignment) (r c : Nat) (p : Int) :
    lhsVal x (prefilledCon r c p) =
      ((values.filter (fun v => x r c v)).map (fun v : Nat => (v : Int))).sum := by
  unfold lhsVal prefilledCon
  rw [List.map_map]
  have hc : ((fun t : ConTerm => t.coeff * boolToInt (x t.row t.col t.val)) ∘
      (fun v : Nat => ({ coeff := (v : Int), row := r, col := c, val := v } : ConTerm)))
      = fun v : Nat => if x r c v then (v : Int) else 0 := by
    funext v; cases h : x r c v <;> simp [boolToInt, h]
  rw [hc, sum_map_ite]

/-! ### Extraction lemmas -/

lemma extract_unique (x : Assignment) (r c : Nat)
    (h : values.countP (fun v => x r c v) = 1) :
    ∃ v0, v0 ∈ values ∧ x r c v0 = true ∧ extractCell x r c = v0 ∧
      (∀ v ∈ values, x r c v = true → v = v0) := by
  obtain ⟨v0, hmem, htrue, huniq⟩ := countP_one_unique _ _ h
  refine ⟨v0, hmem, htrue, ?_, huniq⟩
  unfold extractCell
  apply foldl_pick_last _ _ _ _ values_sorted hmem htrue
  intro v hv hgv
  have := huniq v hv hgv
  omega

lemma group_perm (x : Assignment) (cells : List (Nat × Nat))
    (hcell : ∀ rc ∈ cells, values.countP (fun v => x rc.1 rc.2 v) = 1)
    (huniq : ∀ v ∈ values, cells.countP (fun rc => x rc.1 rc.2 v) = 1) :
    (cells.map (fun rc => extractCell x rc.1 rc.2)).Perm values := by
  rw [List.perm_iff_count]
  intro a
  by_cases ha : a ∈ values
  · rw [values_count_one a ha, List.count_eq_countP, List.countP_map]
    rw [List.countP_congr (q := fun rc => x rc.1 rc.2 a) ?_]
    · exact huniq a ha
    · intro rc hrc
      obtain ⟨v0, hv0mem, hv0t, hext, hv0u⟩ := extract_unique x rc.1 rc.2 (hcell rc hrc)
      constructor
      · intro hb
        have hea : extractCell x rc.1 rc.2 = a := by
          have := of_decide_eq_true (by exact_mod_cast hb)
          exact this
        rw [← hea, hext] at *
        exact hv0t
      · intro hxa
        have hav : a = v0 := hv0u a ha hxa
        show (extractCell x rc.1 rc.2 == a) = true
        rw [hext, hav]
        exact beq_self_eq_true v0
  · rw [List.count_eq_zero.mpr ha, List.count_eq_zero.mpr ?_]
    intro hmem
    obtain ⟨rc, hrc, heq⟩ := List.mem_map.mp hmem
    obtain ⟨v0, hv0mem, _, hext, _⟩ := extract_unique x rc.1 rc.2 (hcell rc hrc)
    rw [← heq, hext] at ha
    exact ha hv0mem

/-! ### Reading entries of the extracted grid -/

lemma range9_map_getD (f : Nat → Nat) (c : Nat) (hc : c < 9) :
    ((List.range 9).map f).getD c 0 = f c := by
  rw [List.getD_eq_getElem?_getD, List.getElem?_map, List.getElem?_range hc]
  rfl

lemma gridRow_eq (x : Assignment) (r : Nat) (hr : r < 9) :
    gridRow (extract_solution x) r = cols.map (fun c => extractCell x r c) := by
  unfold gridRow extract_solution rows
  rw [List.getD_eq_getElem?_getD, List.getElem?_map, List.getElem?_range hr]
  rfl

lemma extract_entry_eq (x : Assignment) (r c : Nat) (hr : r < 9) (hc : c < 9) :
    ((extract_solution x).getD r []).getD c 0 = extractCell x r c := by
  have h1 : (extract_solution x).getD r [] = cols.map (fun c => extractCell x r c) :=
    gridRow_eq x r hr
  rw [h1]
  exact range9_map_getD _ c hc

lemma gridRow_cells (x : Assignment) (r : Nat) (hr : r < 9) :
    gridRow (extract_solution x) r = (rowCells r).map (fun rc => extractCell x rc.1 rc.2) := by
  rw [gridRow_eq x r hr]
  unfold rowCells
  rw [List.map_map]
  rfl

lemma gridCol_cells (x : Assignment) (c : Nat) (hc : c < 9) :
    gridCol (extract_solution x) c = (colCells c).map (fun rc => extractCell x rc.1 rc.2) := by
  unfold gridCol extract_solution colCells
  rw [List.map_map, List.map_map]
  apply List.map_congr_left
  intro r _
  exact range9_map_getD _ c hc

lemma gridCells_lt : ∀ g ∈ grids, ∀ rc ∈ gridCells g, rc.1 < 9 ∧ rc.2 < 9 := by decide

lemma diag1Cells_lt : ∀ rc ∈ diag1Cells, rc.1 < 9 ∧ rc.2 < 9 := by decide

lemma diag2Cells_lt : ∀ rc ∈ diag2Cells, rc.1 < 9 ∧ rc.2 < 9 := by decide

lemma gridBox_cells (x : Assignment) (g : Nat) (hg : g ∈ grids) :
    gridBox (extract_solution x) g = (gridCells g).map (fun rc => extractCell x rc.1 rc.2) := by
  unfold gridBox
  apply List.map_congr_left
  intro rc hrc
  exact extract_entry_eq x rc.1 rc.2 (gridCells_lt g hg rc hrc).1 (gridCells_lt g hg rc hrc).2

lemma gridDiag1_cells (x : Assignment) :
    gridDiag1 (extract_solution x) = diag1Cells.map (fun rc => extractCell x rc.1 rc.2) := by
  unfold gridDiag1
  apply List.map_congr_left
  intro rc hrc
  exact extract_entry_eq x rc.1 rc.2 (diag1Cells_lt rc hrc).1 (diag1Cells_lt rc hrc).2

lemma gridDiag2_cells (x : Assignment) :
    gridDiag2 (extract_solution x) = diag2Cells.map (fun rc => extractCell x rc.1 rc.2) := by
  unfold gridDiag2
  apply List.map_congr_left
  intro rc hrc
  exact extract_entry_eq x rc.1 rc.2 (diag2Cells_lt rc hrc).1 (diag2Cells_lt rc hrc).2

/-! ### Membership of the generated constraints in the built lists -/

lemma cellCon_mem {r c : Nat} (hr : r ∈ rows) (hc : c ∈ cols) :
    cellCon r c ∈ add_default_sudoku_constraints := by
  unfold add_default_sudoku_constraints
  refine List.mem_append_left _ (List.mem_append_left _ (List.mem_append_left _ ?_))
  exact List.mem_flatMap.mpr ⟨r, hr, List.mem_map_of_mem _ hc⟩

lemma rowCon_mem {r v : Nat} (hr : r ∈ rows) (hv : v ∈ values) :
    weightedCon (CName.uniqRow r v) (rowCells r) v ∈ add_default_sudoku_constraints := by
  unfold add_default_sudoku_constraints
  refine List.mem_append_left _ (List.mem_append_left _ (List.mem_append_right _ ?_))
  exact List.mem_flatMap.mpr ⟨r, hr, List.mem_map_of_mem _ hv⟩

lemma colCon_mem {c v : Nat} (hc : c ∈ cols) (hv : v ∈ values) :
    weightedCon (CName.uniqCol c v) (colCells c) v ∈ add_default_sudoku_constraints := by
  unfold add_default_sudoku_constraints
  refine List.mem_append_left _ (List.mem_append_right _ ?_)
  exact List.mem_flatMap.mpr ⟨c, hc, List.mem_map_of_mem _ hv⟩

lemma gridCon_mem {g v : Nat} (hg : g ∈ grids) (hv : v ∈ values) :
    weightedCon (CName.uniqGrid g v) (gridCells g) v ∈ add_default_sudoku_constraints := by
  unfold add_default_sudoku_constraints
  refine List.mem_append_right _ ?_
  exact List.mem_flatMap.mpr ⟨g, hg, List.mem_map_of_mem _ hv⟩

lemma diag1Con_mem {v : Nat} (hv : v ∈ values) :
    weightedCon (CName.uniqDiag1 v) diag1Cells v ∈ add_diagonal_sudoku_constraints := by
  unfold add_diagonal_sudoku_constraints
  exact List.mem_append_left _ (List.mem_map_of_mem _ hv)

lemma diag2Con_mem {v : Nat} (hv : v ∈ values) :
    weightedCon (CName.uniqDiag2 v) diag2Cells v ∈ add_diagonal_sudoku_constraints := by
  unfold add_diagonal_sudoku_constraints
  exact List.mem_append_right _ (List.mem_map_of_mem _ hv)

lemma rowCells_range : ∀ r ∈ rows, ∀ rc ∈ rowCells r, rc.1 ∈ rows ∧ rc.2 ∈ cols := by decide

lemma colCells_range : ∀ c ∈ cols, ∀ rc ∈ colCells c, rc.1 ∈ rows ∧ rc.2 ∈ cols := by decide

lemma gridCells_range : ∀ g ∈ grids, ∀ rc ∈ gridCells g, rc.1 ∈ rows ∧ rc.2 ∈ cols := by decide

lemma diag1Cells_range : ∀ rc ∈ diag1Cells, rc.1 ∈ rows ∧ rc.2 ∈ cols := by decide

lemma diag2Cells_range : ∀ rc ∈ diag2Cells, rc.1 ∈ rows ∧ rc.2 ∈ cols := by decide

/-- Any group of cells lying inside the 9x9 range extracts to a permutation of
`values`, given the cell constraints and the per-value weighted uniqueness
constraints of that group. -/
lemma group_perm_of_sat (x : Assignment) (cells : List (Nat × Nat)) (nm : Nat → CName)
    (hdef : SatisfiesAll x add_default_sudoku_constraints)
    (hcells : ∀ rc ∈ cells, rc.1 ∈ rows ∧ rc.2 ∈ cols)
    (hw : ∀ v ∈ values, conSat x (weightedCon (nm v) cells v)) :
    (cells.map (fun rc => extractCell x rc.1 rc.2)).Perm values := by
  apply group_perm
  · intro rc hrc
    have hmem := cellCon_mem (hcells rc hrc).1 (hcells rc hrc).2
    exact (conSat_cellCon x rc.1 rc.2).mp (hdef _ hmem)
  · intro v hv
    exact (conSat_weightedCon x (nm v) cells v (values_pos v hv)).mp (hw v hv)

/-! ### Claim theorems -/

/-- C1: for any binary assignment that satisfies every constraint generated by
`add_default_sudoku_constraints`, the grid returned by `extract_solution` has
each of its 9 rows, each of its 9 columns and each of its 9 3x3 boxes equal to
a permutation of the values 1..9; and when the diagonal constraints of
`add_diagonal_sudoku_constraints` were added and are satisfied as well, both
main diagonals are permutations of 1..9 too. -/
theorem c1_extracted_groups_are_permutations (x : Assignment) (diagonal : Bool)
    (hdef : SatisfiesAll x add_default_sudoku_constraints)
    (hdiag : diagonal = true → SatisfiesAll x add_diagonal_sudoku_constraints) :
    (∀ r ∈ rows, (gridRow (extract_solution x) r).Perm values) ∧
    (∀ c ∈ cols, (gridCol (extract_solution x) c).Perm values) ∧
    (∀ g ∈ grids, (gridBox (extract_solution x) g).Perm values) ∧
    (diagonal = true →
      (gridDiag1 (extract_solution x)).Perm values ∧
      (gridDiag2 (extract_solution x)).Perm values) := by
  refine ⟨?_, ?_, ?_, ?_⟩
  · intro r hr
    rw [gridRow_cells x r (by simpa [rows] using hr)]
    exact group_perm_of_sat x (rowCells r) (fun v => CName.uniqRow r v) hdef
      (rowCells_range r hr) (fun v hv => hdef _ (rowCon_mem hr hv))
  · intro c hc
    rw [gridCol_cells x c (by simpa [cols] using hc)]
    exact group_perm_of_sat x (colCells c) (fun v => CName.uniqCol c v) hdef
      (colCells_range c hc) (fun v hv => hdef _ (colCon_mem hc hv))
  · intro g hg
    rw [gridBox_cells x g hg]
    exact group_perm_of_sat x (gridCells g) (fun v => CName.uniqGrid g v) hdef
      (gridCells_range g hg) (fun v hv => hdef _ (gridCon_mem hg hv))
  · intro hd
    have hds := hdiag hd
    constructor
    · rw [gridDiag1_cells x]
      exact group_perm_of_sat x diag1Cells (fun v => CName.uniqDiag1 v) hdef
        diag1Cells_range (fun v hv => hds _ (diag1Con_mem hv))
    · rw [gridDiag2_cells x]
      exact group_perm_of_sat x diag2Cells (fun v => CName.uniqDiag2 v) hdef
        diag2Cells_range (fun v hv => hds _ (diag2Con_mem hv))

set_option maxRecDepth 4000 in
/-- Witness for C1: the concrete assignment `xsol` satisfies every default
constraint, and the theorem applies to it. -/
theorem c1_witness :
    SatisfiesAll xsol add_default_sudoku_constraints ∧
    (∀ r ∈ rows, (gridRow (extract_solution xsol) r).Perm values) := by
  have h : SatisfiesAll xsol add_default_sudoku_constraints := by decide
  exact ⟨h, (c1_extracted_groups_are_permutations xsol false h
    (fun hcontra => Bool.noConfusion hcontra)).1⟩

/-- C2: for every group of cells and every value `v` in 1..9, an assignment of
the binary variables satisfies the generated weighted-sum constraint
`sum of variable(cell, v) * v over the group = v` if and only if exactly one
cell of the group has its variable for `v` set to 1.  Every row, column, grid
and diagonal constraint of the source is `weightedCon` applied to the cells of
its group. -/
theorem c2_weighted_sum_iff_exactly_one (x : Assignment) (nm : CName)
    (cells : List (Nat × Nat)) (v : Nat) (hv : v ∈ values) :
    conSat x (weightedCon nm cells v) ↔
      cells.countP (fun rc => x rc.1 rc.2 v) = 1 :=
  conSat_weightedCon x nm cells v (values_pos v hv)

/-- Witness for C2, at the row-0 uniqueness constraint for value 5. -/
theorem c2_witness :
    5 ∈ values ∧
    (conSat xsol (weightedCon (CName.uniqRow 0 5) (rowCells 0) 5) ↔
      (rowCells 0).countP (fun rc => xsol rc.1 rc.2 5) = 1) :=
  ⟨by decide, c2_weighted_sum_iff_exactly_one xsol (CName.uniqRow 0 5) (rowCells 0) 5 (by decide)⟩

/-- C3: for every cell `(r, c)` and non-zero board entry `p`, any binary
assignment satisfying both the cell constraint of `(r, c)` and the prefilled
constraint generated for `p` makes exactly the variable `(r, c, p)` true among
the cell's variables, and the extracted solution cell equals `p`. -/
theorem c3_prefilled_pins_cell (x : Assignment) (r c : Nat) (p : Int) (hp : p ≠ 0)
    (h1 : conSat x (cellCon r c)) (h2 : conSat x (prefilledCon r c p)) :
    (∀ v ∈ values, (x r c v = true ↔ (v : Int) = p)) ∧
    ((extractCell x r c : Int) = p) := by
  have hcount := (conSat_cellCon x r c).mp h1
  obtain ⟨v0, hv0mem, hv0t, hext, hv0u⟩ := extract_unique x r c hcount
  have hfil : values.filter (fun v => x r c v) = [v0] := by
    rw [List.countP_eq_length_filter] at hcount
    obtain ⟨a, ha⟩ := List.length_eq_one.mp hcount
    have hma : a ∈ values.filter (fun v => x r c v) := by
      rw [ha]; exact List.mem_singleton_self a
    obtain ⟨hal, hap⟩ := List.mem_filter.mp hma
    rw [ha, hv0u a hal hap]
  have hsum := h2
  unfold conSat at hsum
  rw [lhsVal_prefilledCon, hfil] at hsum
  have hv0p : (v0 : Int) = p := by simpa [prefilledCon] using hsum
  refine ⟨?_, ?_⟩
  · intro v hv
    constructor
    · intro hxv
      rw [hv0u v hv hxv]
      exact hv0p
    · intro hvp
      have hvv0 : v = v0 := by exact_mod_cast hvp.trans hv0p.symm
      rw [hvv0]
      exact hv0t
  · rw [hext]
    exact hv0p

/-- Witness for C3, at cell (0,0) prefilled with 5 under the assignment `x5`. -/
theorem c3_witness :
    ((5 : Int) ≠ 0 ∧ conSat x5 (cellCon 0 0) ∧ conSat x5 (prefilledCon 0 0 5)) ∧
    ((∀ v ∈ values, (x5 0 0 v = true ↔ (v : Int) = 5)) ∧
      ((extractCell x5 0 0 : Int) = 5)) :=
  ⟨⟨by decide, by decide, by decide⟩,
    c3_prefilled_pins_cell x5 0 0 5 (by decide) (by decide) (by decide)⟩

/-! ### The prefilled traversal: success, length, and input dependence -/

lemma cellList_lt : ∀ rc ∈ cellList, rc.1 < 9 ∧ rc.2 < 9 := by decide

lemma cellList_range : ∀ rc ∈ cellList, rc.1 ∈ rows ∧ rc.2 ∈ cols := by decide

lemma prefilledAux_isSome (board : List (List Int)) (L : List (Nat × Nat)) :
    (prefilledAux board L).isSome =
      L.all (fun rc => (cellEntry board rc.1 rc.2).isSome) := by
  induction L with
  | nil => rfl
  | cons rc t ih =>
    unfold prefilledAux
    cases h : cellEntry board rc.1 rc.2 with
    | none => simp [h]
    | some p =>
      cases ht : prefilledAux board t with
      | none =>
        rw [ht] at ih
        simp [h, ← ih]
      | some cs =>
        rw [ht] at ih
        simp [h, ← ih]

lemma prefilledAux_ok (board : List (List Int)) (L : List (Nat × Nat))
    (h : ∀ rc ∈ L, (cellEntry board rc.1 rc.2).isSome = true) :
    ∃ cs, prefilledAux board L = some cs ∧
      cs.length = L.countP (fun rc => entryNonzero board rc.1 rc.2) := by
  induction L with
  | nil => exact ⟨[], rfl, rfl⟩
  | cons rc t ih =>
    obtain ⟨p, hp⟩ := Option.isSome_iff_exists.mp (h rc (List.mem_cons_self rc t))
    obtain ⟨cs, hcs, hlen⟩ := ih (fun rc' h' => h rc' (List.mem_cons_of_mem _ h'))
    refine ⟨(if p ≠ 0 then [prefilledCon rc.1 rc.2 p] else []) ++ cs, ?_, ?_⟩
    · unfold prefilledAux
      rw [hp, hcs]
    · rw [List.length_append, hlen, List.countP_cons]
      unfold entryNonzero
      rw [hp]
      by_cases hz : p = 0 <;> simp [hz] <;> omega

lemma prefilledAux_congr (b1 b2 : List (List Int)) (L : List (Nat × Nat))
    (h : ∀ rc ∈ L, cellEntry b1 rc.1 rc.2 = cellEntry b2 rc.1 rc.2) :
    prefilledAux b1 L = prefilledAux b2 L := by
  induction L with
  | nil => rfl
  | cons rc t ih =>
    unfold prefilledAux
    rw [h rc (List.mem_cons_self rc t),
      ih (fun rc' h' => h rc' (List.mem_cons_of_mem _ h'))]

lemma is9x9_entries (board : List (List Int)) (h : is9x9 board = true) :
    ∀ rc ∈ cellList, (cellEntry board rc.1 rc.2).isSome = true := by
  unfold is9x9 at h
  rw [Bool.and_eq_true, beq_iff_eq, List.all_eq_true] at h
  obtain ⟨hlen, hall⟩ := h
  intro rc hrc
  obtain ⟨h1, h2⟩ := cellList_lt rc hrc
  unfold cellEntry
  cases hrow : board[rc.1]? with
  | none =>
    rw [List.getElem?_eq_none_iff] at hrow
    omega
  | some r =>
    have hrmem : r ∈ board := List.getElem?_mem hrow
    have hrlen : r.length = 9 := beq_iff_eq.mp (hall r hrmem)
    rw [Option.isSome_iff_exists]
    have : rc.2 < r.length := by omega
    exact ⟨r[rc.2], (List.getElem?_eq_some_iff).mpr ⟨this, rfl⟩⟩

/-- C4 counterexample: the 10x10 all-zero board is not 9x9 yet the model is
built successfully (no `InvalidBoardShape` failure exists in the code), and
the 9x9 board holding the out-of-range entry 17 also builds successfully (no
`InvalidCellValue` failure exists either). -/
theorem c4_counterexample :
    is9x9 board10 = false ∧ (buildConstraints board10 false).isSome = true ∧
    boardValuesOk board17 = false ∧ (buildConstraints board17 false).isSome = true :=
  ⟨by decide, by decide, by decide, by decide⟩

/-- C4 amended: `solve_sudoku` performs no shape or value validation at all.
Model building succeeds if and only if every cell `(row, col)` with
`row, col < 9` physically exists in the board (otherwise the Python indexing
raises `IndexError` during prefilled-constraint generation); the values of the
entries and any extra rows or columns are never checked. -/
theorem c4_amended_no_validation (board : List (List Int)) (diagonal : Bool) :
    (buildConstraints board diagonal).isSome = true ↔
      ∀ rc ∈ cellList, (cellEntry board rc.1 rc.2).isSome = true := by
  unfold buildConstraints add_prefilled_constraints
  rw [← List.all_eq_true, ← prefilledAux_isSome]
  cases hp : prefilledAux board cellList <;> simp [hp]

set_option maxRecDepth 8000 in
/-- C6: for every 9x9 input board, the built model has exactly `9^3 = 729`
binary variables, and the number of generated constraints is
`81 (cell) + 162 (row and column) + 81 (box) + 18 when diagonal + one per
non-zero board cell`. -/
theorem c6_model_size (board : List (List Int)) (diagonal : Bool)
    (h : is9x9 board = true) :
    varList.length = 9 ^ 3 ∧
    ∃ cs, buildConstraints board diagonal = some cs ∧
      cs.length = 9 * 9 + 2 * (9 * 9) + 9 * 9 +
        (if diagonal then 2 * 9 else 0) +
        cellList.countP (fun rc => entryNonzero board rc.1 rc.2) := by
  refine ⟨by decide, ?_⟩
  obtain ⟨pre, hpre, hlen⟩ := prefilledAux_ok board cellList (is9x9_entries board h)
  refine ⟨add_default_sudoku_constraints ++
    (if diagonal then add_diagonal_sudoku_constraints else []) ++ pre, ?_, ?_⟩
  · unfold buildConstraints add_prefilled_constraints
    rw [hpre]
  · rw [List.length_append, List.length_append, hlen]
    have hdl : add_default_sudoku_constraints.length = 324 := by decide
    have hgl : add_diagonal_sudoku_constraints.length = 18 := by decide
    cases diagonal <;> simp [hdl, hgl] <;> omega

/-- Witness for C6 at the `normal_sudoku` board of the source file. -/
theorem c6_witness :
    is9x9 normal_sudoku = true ∧
    (varList.length = 9 ^ 3 ∧
      ∃ cs, buildConstraints normal_sudoku true = some cs ∧
        cs.length = 9 * 9 + 2 * (9 * 9) + 9 * 9 +
          (if true then 2 * 9 else 0) +
          cellList.countP (fun rc => entryNonzero normal_sudoku rc.1 rc.2)) :=
  ⟨by decide, c6_model_size normal_sudoku true (by decide)⟩

/-- C7: building with the diagonal flag set produces, up to reordering,
exactly the diagonal-disabled constraint set plus the `2 * 9` diagonal
constraints, one weighted uniqueness constraint per value over the cells
`(i, i)` and one per value over the cells `(i, 9 - i - 1)`; no other
constraint is changed or removed. -/
theorem c7_diagonal_additive (board : List (List Int)) (h : is9x9 board = true) :
    ∃ cs cs', buildConstraints board false = some cs ∧
      buildConstraints board true = some cs' ∧
      cs'.Perm (cs ++ add_diagonal_sudoku_constraints) ∧
      add_diagonal_sudoku_constraints.length = 2 * 9 ∧
      add_diagonal_sudoku_constraints =
        (values.map (fun v =>
          weightedCon (CName.uniqDiag1 v) (rows.map (fun i => (i, i))) v)) ++
        (values.map (fun v =>
          weightedCon (CName.uniqDiag2 v) (rows.map (fun i => (i, 9 - i - 1))) v)) := by
  obtain ⟨pre, hpre, _⟩ := prefilledAux_ok board cellList (is9x9_entries board h)
  refine ⟨add_default_sudoku_constraints ++ [] ++ pre,
    add_default_sudoku_constraints ++ add_diagonal_sudoku_constraints ++ pre,
    ?_, ?_, ?_, by decide, by decide⟩
  · unfold buildConstraints add_prefilled_constraints
    rw [hpre]
    rfl
  · unfold buildConstraints add_prefilled_constraints
    rw [hpre]
    rfl
  · rw [List.append_nil, List.append_assoc, List.append_assoc]
    exact List.Perm.append_left _ List.perm_append_comm

/-- Witness for C7 at the `normal_sudoku` board of the source file. -/
theorem c7_witness :
    is9x9 normal_sudoku = true ∧
    (∃ cs cs', buildConstraints normal_sudoku false = some cs ∧
      buildConstraints normal_sudoku true = some cs' ∧
      cs'.Perm (cs ++ add_diagonal_sudoku_constraints) ∧
      add_diagonal_sudoku_constraints.length = 2 * 9 ∧
      add_diagonal_sudoku_constraints =
        (values.map (fun v =>
          weightedCon (CName.uniqDiag1 v) (rows.map (fun i => (i, i))) v)) ++
        (values.map (fun v =>
          weightedCon (CName.uniqDiag2 v) (rows.map (fun i => (i, 9 - i - 1))) v))) :=
  ⟨by decide, c7_diagonal_additive normal_sudoku (by decide)⟩

/-- C8: model construction is a deterministic function of the board contents
and the diagonal flag: any two boards whose cells agree at every position read
by the builder produce identical constraint lists, and no state is carried
between calls (each build is a pure function application). -/
theorem c8_build_deterministic (b1 b2 : List (List Int)) (diagonal : Bool)
    (h : ∀ r ∈ rows, ∀ c ∈ cols, cellEntry b1 r c = cellEntry b2 r c) :
    buildConstraints b1 diagonal = buildConstraints b2 diagonal := by
  unfold buildConstraints add_prefilled_constraints
  rw [prefilledAux_congr b1 b2 cellList
    (fun rc hrc => h rc.1 (cellList_range rc hrc).1 rc.2 (cellList_range rc hrc).2)]

/-- Witness for C8: the source board and the same board extended by a spare
row are distinct inputs agreeing on all read cells, and they build the same
model. -/
theorem c8_witness :
    (∀ r ∈ rows, ∀ c ∈ cols,
      cellEntry normal_sudoku r c = cellEntry (normal_sudoku ++ [[5]]) r c) ∧
    buildConstraints normal_sudoku false =
      buildConstraints (normal_sudoku ++ [[5]]) false :=
  ⟨by decide, c8_build_deterministic normal_sudoku (normal_sudoku ++ [[5]]) false (by decide)⟩

/-- C5 counterexample: even for status `Optimal` with a fully consistent
assignment, `solve_sudoku` returns `None` to its caller — the solution grid is
only printed, never returned. -/
theorem c5_counterexample :
    (solve_sudoku_output LpStatusCode.Optimal xsol).returned = none := rfl

/-- C5 amended: `solve_sudoku` always returns `None`; it prints the status
string (the strings for `Unbounded` and `Undefined` are distinct from the one
for `Infeasible`), and it prints the extracted grid exactly when the status is
`Optimal`; whenever the assignment satisfies the per-cell constraints, that
printed grid is a fully populated 9x9 grid with every entry in 1..9. -/
theorem c5_amended_print_only (status : LpStatusCode) (x : Assignment)
    (hx : ∀ r ∈ rows, ∀ c ∈ cols, conSat x (cellCon r c)) :
    (solve_sudoku_output status x).returned = none ∧
    ((solve_sudoku_output status x).printedSolution = some (extract_solution x) ↔
      status = LpStatusCode.Optimal) ∧
    ((status = LpStatusCode.Unbounded ∨ status = LpStatusCode.Undefined) →
      (solve_sudoku_output status x).printedStatus ≠
        (solve_sudoku_output LpStatusCode.Infeasible x).printedStatus) ∧
    ((extract_solution x).length = 9 ∧
      ∀ rowl ∈ extract_solution x, rowl.length = 9 ∧ ∀ v ∈ rowl, v ∈ values) := by
  refine ⟨rfl, ?_, ?_, rfl, ?_⟩
  · cases status <;> simp [solve_sudoku_output, LpStatusStr]
  · rintro (hs | hs) <;> rw [hs] <;> simp [solve_sudoku_output, LpStatusStr]
  · intro rowl hrowl
    obtain ⟨r, hr, rfl⟩ := List.mem_map.mp hrowl
    refine ⟨rfl, ?_⟩
    intro v hv
    obtain ⟨c, hc, rfl⟩ := List.mem_map.mp hv
    obtain ⟨v0, hv0mem, _, hext, _⟩ :=
      extract_unique x r c ((conSat_cellCon x r c).mp (hx r hr c hc))
    rw [hext]
    exact hv0mem

/-- Witness for C5 amended, at status `Infeasible` and the assignment `xsol`. -/
theorem c5_witness :
    (∀ r ∈ rows, ∀ c ∈ cols, conSat xsol (cellCon r c)) ∧
    ((solve_sudoku_output LpStatusCode.Infeasible xsol).returned = none ∧
    ((solve_sudoku_output LpStatusCode.Infeasible xsol).printedSolution =
        some (extract_solution xsol) ↔
      LpStatusCode.Infeasible = LpStatusCode.Optimal) ∧
    ((LpStatusCode.Infeasible = LpStatusCode.Unbounded ∨
        LpStatusCode.Infeasible = LpStatusCode.Undefined) →
      (solve_sudoku_output LpStatusCode.Infeasible xsol).printedStatus ≠
        (solve_sudoku_output LpStatusCode.Infeasible xsol).printedStatus) ∧
    ((extract_solution xsol).length = 9 ∧
      ∀ rowl ∈ extract_solution xsol, rowl.length = 9 ∧ ∀ v ∈ rowl, v ∈ values)) :=
  ⟨by decide, c5_amended_print_only LpStatusCode.Infeasible xsol (by decide)⟩

/-- C9 counterexample: under the all-false assignment every cell has zero
values reading true, yet `extract_solution` does not fail: it returns the
all-zero grid, leaving every cell silently at the default 0. -/
theorem c9_counterexample :
    extract_solution xAllFalse = List.replicate 9 (List.replicate 9 0) := by decide

/-- C9 amended: when zero values of a cell read true, `extract_solution`
returns normally and leaves that cell at the default 0; the code has no
failure path (no `InconsistentAssignment` exists). -/
theorem c9_amended_silent_default (x : Assignment) (r c : Nat)
    (hr : r < 9) (hc : c < 9) (h : ∀ v ∈ values, x r c v = false) :
    ((extract_solution x).getD r []).getD c 0 = 0 := by
  rw [extract_entry_eq x r c hr hc]
  exact foldl_pick_none _ _ _ h

/-- Witness for C9 amended, at cell (0,0) of the all-false assignment. -/
theorem c9_witness :
    ((0 : Nat) < 9 ∧ (∀ v ∈ values, xAllFalse 0 0 v = false)) ∧
    ((extract_solution xAllFalse).getD 0 []).getD 0 0 = 0 :=
  ⟨⟨by decide, by decide⟩,
    c9_amended_silent_default xAllFalse 0 0 (by decide) (by decide) (by decide)⟩

/-- C10: when a cell has two or more values whose variables read true,
`extract_solution` sets that cell to the largest such value: the scan runs
over the values in increasing order 1..9 and each true value overwrites the
previous one, so the last write wins. -/
theorem c10_last_write_wins (x : Assignment) (r c v1 v2 : Nat)
    (hv1 : v1 ∈ values) (hv2 : v2 ∈ values) (hlt : v1 < v2)
    (ht1 : x r c v1 = true) (ht2 : x r c v2 = true)
    (hmax : ∀ v ∈ values, x r c v = true → v ≤ v2)
    (hr : r < 9) (hc : c < 9) :
    ((extract_solution x).getD r []).getD c 0 = v2 := by
  rw [extract_entry_eq x r c hr hc]
  exact foldl_pick_last _ _ _ _ values_sorted hv2 ht2 hmax

/-- Witness for C10: with the variables for values 3 and 7 true at cell (0,0),
the extracted cell is 7, the largest true value. -/
theorem c10_witness :
    (3 ∈ values ∧ 7 ∈ values ∧ (3 : Nat) < 7 ∧ x37 0 0 3 = true ∧ x37 0 0 7 = true ∧
      (∀ v ∈ values, x37 0 0 v = true → v ≤ 7)) ∧
    ((extract_solution x37).getD 0 []).getD 0 0 = 7 :=
  ⟨⟨by decide, by decide, by decide, by decide, by decide, by decide⟩,
    c10_last_write_wins x37 0 0 3 7 (by decide) (by decide) (by decide) (by decide)
      (by decide) (by decide) (by decide) (by decide)⟩
